import Mathlib

/-!
Verification of the GPT-to-Ableton bridge script (`gpt_to_ableton.py`).

The script extracts three marked tables (Melody, Drum, Bass) from a text
blob, parses each into rows of whitespace-separated tokens, computes a
per-track pattern duration, and emits a stream of OSC commands (set tempo,
delete/create clips, add notes).

Shallow embedding conventions:
- Python `str` is modelled as `List Char`.
- Python decimal floats are modelled exactly by `Dec` (an integer mantissa
  together with a decimal exponent, denoting `num / 10 ^ exp`).  The script
  only ever builds such values from decimal literals, adds them, and rounds
  them to 4 decimal places, so this exact-decimal model covers every
  operation it performs.
- Fallible conversions (`int(...)`, `float(...)`, list indexing) return
  `Option`; a `none` models the Python exception aborting the run.
- The OSC client is opaque: the embedding collects the exact list of
  messages handed to it, paired with a flag that is `false` when the run
  aborted with an exception after emitting those messages.
-/

/-- Exact decimal number `num / 10 ^ exp`; the model of the Python floats
appearing in this script (all of which are sums of parsed decimal
literals). -/
structure Dec where
  num : ℤ
  exp : ℕ
deriving DecidableEq

/-- Addition of exact decimals: rescale both to the larger exponent. -/
def Dec.add (a b : Dec) : Dec :=
  ⟨a.num * 10 ^ (max a.exp b.exp - a.exp) + b.num * 10 ^ (max a.exp b.exp - b.exp),
   max a.exp b.exp⟩

instance : Add Dec := ⟨Dec.add⟩

instance : Zero Dec := ⟨⟨0, 0⟩⟩

/-- Rational value denoted by a `Dec`. -/
def Dec.val (d : Dec) : ℚ := (d.num : ℚ) / 10 ^ d.exp

/-- Model of Python `round(x, 4)` (round half to even) on exact
decimals. -/
def Dec.round4 (d : Dec) : Dec :=
  if d.exp ≤ 4 then ⟨d.num * 10 ^ (4 - d.exp), 4⟩
  else
    let scale : ℤ := 10 ^ (d.exp - 4)
    let f : ℤ := Int.fdiv d.num scale
    let r2 : ℤ := 2 * (d.num - f * scale)
    let q : ℤ :=
      if r2 < scale then f
      else if scale < r2 then f + 1
      else if f % 2 = 0 then f else f + 1
    ⟨q, 4⟩

/-- Numeric value of a digit character. -/
def digitVal (c : Char) : ℕ := c.toNat - 48

/-- Value of a list of decimal digit characters. -/
def digitsVal (cs : List Char) : ℕ :=
  cs.foldl (fun a c => 10 * a + digitVal c) 0

/-- Model of Python `int(token)` on a plain decimal token (optional sign
followed by digits).  Exotic accepted forms (surrounding whitespace,
underscores) are not modelled; every token this development evaluates on
is either a plain decimal form or clearly non-numeric in both senses. -/
def pyInt? (cs : List Char) : Option ℤ :=
  match cs with
  | '-' :: rest =>
      if rest ≠ [] ∧ rest.all Char.isDigit then some (-(digitsVal rest : ℤ)) else none
  | '+' :: rest =>
      if rest ≠ [] ∧ rest.all Char.isDigit then some (digitsVal rest : ℤ) else none
  | _ =>
      if cs ≠ [] ∧ cs.all Char.isDigit then some (digitsVal cs : ℤ) else none

/-- Splitter predicate for the decimal point. -/
def isDot (c : Char) : Bool := c == '.'

/-- Splitter predicate for the newline character (Python `split("\n")`). -/
def isNl (c : Char) : Bool := c == '\n'

/-- Splitter predicate for Python `re.split("\t| ", row)`: a single tab or
a single space character. -/
def isWs (c : Char) : Bool := c == '\t' || c == ' '

/-- Split a character list at every character satisfying `p`, keeping
empty pieces — the semantics of Python `str.split(sep)` with a one-character
separator and of `re.split` over single-character alternatives. -/
def splitP (p : Char → Bool) : List Char → List (List Char)
  | [] => [[]]
  | c :: cs =>
    let r := splitP p cs
    if p c then [] :: r
    else
      match r with
      | [] => [[c]]
      | t :: ts => (c :: t) :: ts

/-- Join token lists with a single separator character (used to state
properties about rows of the form `"P S D V"`). -/
def joinSep (sep : Char) : List (List Char) → List Char
  | [] => []
  | [t] => t
  | t :: ts => t ++ sep :: joinSep sep ts

/-- Unsigned part of Python `float(token)`: digits with at most one
decimal point (`"5"`, `"5."`, `".5"`, `"0.5"`).  Exponent notation is not
modelled (see `pyInt?`). -/
def pyFloatCore? (cs : List Char) : Option Dec :=
  match splitP isDot cs with
  | [a] =>
      if a ≠ [] ∧ a.all Char.isDigit then some ⟨(digitsVal a : ℤ), 0⟩ else none
  | [a, b] =>
      if (a ≠ [] ∨ b ≠ []) ∧ a.all Char.isDigit ∧ b.all Char.isDigit then
        some ⟨(digitsVal a : ℤ) * 10 ^ b.length + (digitsVal b : ℤ), b.length⟩
      else none
  | _ => none

/-- Model of Python `float(token)` on plain decimal tokens. -/
def pyFloat? (cs : List Char) : Option Dec :=
  match cs with
  | '-' :: rest => (pyFloatCore? rest).map (fun d => ⟨-d.num, d.exp⟩)
  | '+' :: rest => pyFloatCore? rest
  | _ => pyFloatCore? cs

-- Constants of gpt_to_ableton.py.

/-- Source constant `PITCH`. -/
def PITCH : String := ("pitch")

/-- Source constant `START_TIME`. -/
def START_TIME : String := ("start_time")

/-- Source constant `VELOCITY`. -/
def VELOCITY : String := ("velocity")

/-- Source constant `DURATION`. -/
def DURATION : String := ("duration")

/-- Source constant `SCHEMA = [PITCH, START_TIME, DURATION, VELOCITY]`. -/
def SCHEMA : List String := [PITCH, START_TIME, DURATION, VELOCITY]

/-- Source constant `VALID_MIDI_NOTES = range(30, 91)`. -/
def VALID_MIDI_NOTES : List ℕ := List.range' 30 61

/-- Source constant `SONG_TEMPO = 60`. -/
def SONG_TEMPO : ℤ := 60

/-- Source constant `MELODY = "Melody"`. -/
def MELODY : List Char := ("Melody").data

/-- Source constant `DRUM = "Drum"`. -/
def DRUM : List Char := ("Drum").data

/-- Source constant `BASS = "Bass"`. -/
def BASS : List Char := ("Bass").data

/-- A parsed table row: the list of whitespace-separated tokens. -/
abbrev Row := List (List Char)

/-- `int(row[SCHEMA.index(PITCH)])`. -/
def rowPitch? (row : Row) : Option ℤ :=
  (row.get? (SCHEMA.findIdx (fun s => s == PITCH))).bind pyInt?

/-- `int(row[SCHEMA.index(VELOCITY)])`. -/
def rowVel? (row : Row) : Option ℤ :=
  (row.get? (SCHEMA.findIdx (fun s => s == VELOCITY))).bind pyInt?

/-- `float(row[SCHEMA.index(DURATION)])`. -/
def rowDur? (row : Row) : Option Dec :=
  (row.get? (SCHEMA.findIdx (fun s => s == DURATION))).bind pyFloat?

/-- `float(row[SCHEMA.index(START_TIME)])`. -/
def rowStart? (row : Row) : Option Dec :=
  (row.get? (SCHEMA.findIdx (fun s => s == START_TIME))).bind pyFloat?

/-- All-or-nothing traversal used to state success hypotheses. -/
def mapO (f : α → Option β) : List α → Option (List β)
  | [] => some []
  | a :: l =>
    match f a, mapO f l with
    | some b, some bs => some (b :: bs)
    | _, _ => none

/-- The numeric fields read from a row during note emission (pitch,
velocity, duration, in the order the source converts them). -/
def rowTriple? (row : Row) : Option (ℤ × ℤ × Dec) :=
  match rowPitch? row, rowVel? row, rowDur? row with
  | some p, some v, some d => some (p, v, d)
  | _, _, _ => none

-- find_substring (gpt_to_ableton.py lines 53-60).

/-- Scan indices `i, i-1, ..., 0` for the largest index `e` with
`f ≤ e` at which `sub` occurs in `s` (the search of Python
`str.rindex(sub, f)`). -/
def rlook (s sub : List Char) (f : ℕ) : ℕ → Option ℕ
  | 0 => if f = 0 ∧ sub <+: s.drop 0 then some 0 else none
  | i + 1 =>
    if f ≤ i + 1 ∧ sub <+: s.drop (i + 1) then some (i + 1)
    else rlook s sub f i

/-- Python `s.rindex(sub, f)`: index of the last occurrence of `sub`
starting at or after `f`, `none` for the `ValueError` case. -/
def rindexFrom (s sub : List Char) (f : ℕ) : Option ℕ :=
  rlook s sub f s.length

/-- Python `s.rindex(sub)`. -/
def rindex (s sub : List Char) : Option ℕ :=
  rindexFrom s sub 0

/-- `find_substring` (source lines 53-60): substring strictly between the
last occurrence of `start` and the last occurrence of `e` at or after it;
`""` when either `rindex` raises `ValueError`. -/
def find_substring (s start e : List Char) : List Char :=
  match rindex s start with
  | none => []
  | some i =>
    match rindexFrom s e (i + start.length) with
    | none => []
    | some j => (s.take j).drop (i + start.length)

/-- First index at which `sub` occurs in `s` (Python `str.find`). -/
def lfind (s sub : List Char) : Option ℕ :=
  (List.range (s.length + 1)).find? (fun i => decide (sub <+: s.drop i))

/-- Python substring containment `sub in s`. -/
def containsSub (s sub : List Char) : Bool :=
  (lfind s sub).isSome

/-- Python `s.split(sub, 1)[1]`: everything after the first occurrence of
`sub`.  Only invoked by the main flow after establishing that `sub`
occurs in `s`. -/
def pySplitAfterFirst (s sub : List Char) : List Char :=
  match lfind s sub with
  | none => []
  | some i => s.drop (i + sub.length)

-- parse_table_to_list (gpt_to_ableton.py lines 63-72).

/-- `parse_table_to_list` (source lines 63-72): `none` models the Python
`None` returned for empty input; otherwise split into lines, keep the
non-empty lines that start with the decimal representation of some valid
MIDI note, split each kept line on single tab/space characters, and keep
the splits with at least `len(SCHEMA)` fields. -/
def parse_table_to_list (data : List Char) (valid_midi_notes : List ℕ) :
    Option (List Row) :=
  if data = [] then none
  else
    let rows :=
      ((splitP isNl data).filter
        (fun row =>
          decide (row ≠ []) &&
          decide (∃ n ∈ valid_midi_notes, Nat.toDigits 10 n <+: row))).map
        (splitP isWs)
    some (rows.filter (fun i => decide (SCHEMA.length ≤ i.length)))

-- calculate_pattern_duration (gpt_to_ableton.py lines 75-81).

/-- The accumulation loop of `calculate_pattern_duration`: starting from
`t`, add `float(row[SCHEMA.index(DURATION)])` for each row, failing on
the first unparseable or missing duration token. -/
def sumDurAux : List Row → Dec → Option Dec
  | [], t => some t
  | row :: rest, t =>
    match rowDur? row with
    | none => none
    | some d => sumDurAux rest (t + d)

/-- `calculate_pattern_duration` (source lines 75-81):
`round(float(data[0][1]) + sum of float(row[2]), 4)`, failing when the
list is empty or a read token does not parse. -/
def calculate_pattern_duration (data : List Row) : Option Dec :=
  match data.head? with
  | none => none
  | some first =>
    match rowStart? first with
    | none => none
    | some t0 => (sumDurAux data t0).map Dec.round4

-- The outbound OSC command stream.

/-- One OSC message handed to the Ableton client. -/
inductive Command where
  | setTempo (tempo : ℤ)
  | deleteClip (track clip : ℕ)
  | createClip (track clip : ℕ) (length : Dec)
  | addNote (track clip : ℕ) (pitch : ℤ) (start duration : Dec)
      (velocity : ℤ) (mute : ℕ)
deriving DecidableEq

/-- `initiate_clips` (source lines 84-103): sends the tempo message, then
computes the three pattern durations, then sends delete/create pairs for
slots 0, 1, 2.  The `Bool` is `false` when a duration computation raised,
in which case only the already-sent messages are reported. -/
def initiate_clips (song_tempo : ℤ) (melody_data drum_data bass_data : List Row) :
    List Command × Bool :=
  match calculate_pattern_duration melody_data,
        calculate_pattern_duration drum_data,
        calculate_pattern_duration bass_data with
  | some lm, some ld, some lb =>
      ([Command.setTempo song_tempo,
        Command.deleteClip 0 0, Command.createClip 0 0 lm,
        Command.deleteClip 1 0, Command.createClip 1 0 ld,
        Command.deleteClip 2 0, Command.createClip 2 0 lb], true)
  | _, _, _ => ([Command.setTempo song_tempo], false)

/-- The per-track loop of `send_events`: convert pitch, velocity and
duration of each row (in the source's conversion order), emit the note
message at the running pointer, advance the pointer by the duration.
Aborts, keeping the messages emitted so far, on the first conversion
failure. -/
def send_track_events (slot : ℕ) : Dec → List Row → List Command × Bool
  | _, [] => ([], true)
  | pointer, row :: rest =>
    match rowPitch? row with
    | none => ([], false)
    | some pitch =>
      match rowVel? row with
      | none => ([], false)
      | some velocity =>
        match rowDur? row with
        | none => ([], false)
        | some duration =>
          let r := send_track_events slot (pointer + duration) rest
          (Command.addNote slot 0 pitch pointer duration velocity 0 :: r.1, r.2)

/-- One `if <track>_data:` block of `send_events`: skip an empty track,
otherwise initialise the pointer from the first row's start_time and run
the loop. -/
def send_events_track (slot : ℕ) (data : List Row) : List Command × Bool :=
  match data with
  | [] => ([], true)
  | first :: _ =>
    match rowStart? first with
    | none => ([], false)
    | some pointer => send_track_events slot pointer data

/-- `send_events` (source lines 106-140): the three track blocks in order,
aborting the run (but keeping already-sent messages) at the first
failure. -/
def send_events (melody_data drum_data bass_data : List Row) :
    List Command × Bool :=
  let rm := send_events_track 0 melody_data
  if rm.2 then
    let rd := send_events_track 1 drum_data
    if rd.2 then
      let rb := send_events_track 2 bass_data
      (rm.1 ++ rd.1 ++ rb.1, rb.2)
    else (rm.1 ++ rd.1, false)
  else rm

/-- The sequencing pass of the main flow: `initiate_clips` followed by
`send_events`, with the stream truncated at the first failure. -/
def run_commands (song_tempo : ℤ) (melody_data drum_data bass_data : List Row) :
    List Command × Bool :=
  let ri := initiate_clips song_tempo melody_data drum_data bass_data
  if ri.2 then
    let rs := send_events melody_data drum_data bass_data
    (ri.1 ++ rs.1, rs.2)
  else ri

/-- The note commands described by the specification: one `addNote` per
event, pointer initialised to the given value and advanced by each
event's duration. -/
def noteCmds (slot : ℕ) : Dec → List (ℤ × ℤ × Dec) → List Command
  | _, [] => []
  | pointer, (p, v, d) :: rest =>
    Command.addNote slot 0 p pointer d v 0 :: noteCmds slot (pointer + d) rest

-- The main flow (gpt_to_ableton.py lines 143-170).

/-- Outcome of one run of the script on a response text. -/
inductive RunResult where
  | missingSection
  | badFormat
  | ran (cmds : List Command) (ok : Bool)
deriving DecidableEq

/-- Messages sent to the client in a given outcome: both warn-and-exit
outcomes send none. -/
def commandsOf : RunResult → List Command
  | RunResult.missingSection => []
  | RunResult.badFormat => []
  | RunResult.ran cmds _ => cmds

/-- Python truthiness of the `parse_table_to_list` result (`None` and the
empty list are falsy). -/
def truthyRows (x : Option (List Row)) : Bool :=
  match x with
  | none => false
  | some l => !l.isEmpty

/-- The `__main__` flow (source lines 143-170) on a given response text:
warn and exit if a marker is missing; extract and parse the three tables;
warn and exit if any parse is falsy; otherwise run the sequencing pass. -/
def gpt_main (response_text : List Char) : RunResult :=
  if !containsSub response_text MELODY
      || !containsSub response_text DRUM
      || !containsSub response_text BASS then
    RunResult.missingSection
  else
    let melody_data :=
      parse_table_to_list (find_substring response_text MELODY DRUM) VALID_MIDI_NOTES
    let drum_data :=
      parse_table_to_list (find_substring response_text DRUM BASS) VALID_MIDI_NOTES
    let bass_data :=
      parse_table_to_list (pySplitAfterFirst response_text BASS) VALID_MIDI_NOTES
    if !truthyRows melody_data || !truthyRows drum_data || !truthyRows bass_data then
      RunResult.badFormat
    else
      let r := run_commands SONG_TEMPO (melody_data.getD []) (drum_data.getD [])
        (bass_data.getD [])
      RunResult.ran r.1 r.2

-- Helper lemmas: exact decimals form an additive commutative monoid.

theorem Dec.add_def (a b : Dec) :
    a + b = ⟨a.num * 10 ^ (max a.exp b.exp - a.exp)
      + b.num * 10 ^ (max a.exp b.exp - b.exp), max a.exp b.exp⟩ := rfl

theorem Dec.add_comm (a b : Dec) : a + b = b + a := by
  cases a with
  | mk x i =>
    cases b with
    | mk y j =>
      simp only [Dec.add_def, Dec.mk.injEq]
      constructor
      · rw [Nat.max_comm i j]
        ring
      · exact Nat.max_comm i j

theorem Dec.zero_add (a : Dec) : 0 + a = a := by
  cases a with
  | mk x i =>
    show Dec.add ⟨0, 0⟩ ⟨x, i⟩ = ⟨x, i⟩
    simp [Dec.add]

theorem Dec.add_zero (a : Dec) : a + 0 = a := by
  cases a with
  | mk x i =>
    show Dec.add ⟨x, i⟩ ⟨0, 0⟩ = ⟨x, i⟩
    simp [Dec.add]

theorem Dec.add_assoc (a b c : Dec) : a + b + c = a + (b + c) := by
  cases a with
  | mk x i =>
    cases b with
    | mk y j =>
      cases c with
      | mk z k =>
        simp only [Dec.add_def, Dec.mk.injEq]
        have hM : max (max i j) k = max i (max j k) := Nat.max_assoc i j k
        constructor
        · rw [hM]
          have e1 : max i j - i + (max i (max j k) - max i j)
              = max i (max j k) - i := by omega
          have e2 : max i j - j + (max i (max j k) - max i j)
              = max i (max j k) - j := by omega
          have e3 : max j k - j + (max i (max j k) - max j k)
              = max i (max j k) - j := by omega
          have e4 : max j k - k + (max i (max j k) - max j k)
              = max i (max j k) - k := by omega
          rw [add_mul, add_mul, mul_assoc, mul_assoc, mul_assoc, mul_assoc,
            ← pow_add, ← pow_add, ← pow_add, ← pow_add, e1, e2, e3, e4]
          ring
        · exact hM

instance : AddCommMonoid Dec where
  add_assoc := Dec.add_assoc
  zero_add := Dec.zero_add
  add_zero := Dec.add_zero
  add_comm := Dec.add_comm
  nsmul := nsmulRec

-- Helper lemmas: the character splitter.

theorem splitP_ne_nil (p : Char → Bool) (l : List Char) : splitP p l ≠ [] := by
  cases l with
  | nil => simp [splitP]
  | cons c cs =>
    simp only [splitP]
    by_cases h : p c
    · simp [h]
    · simp only [h]
      cases splitP p cs with
      | nil => simp
      | cons t ts => simp

theorem splitP_no_sep (p : Char → Bool) (l : List Char)
    (h : ∀ c ∈ l, p c = false) : splitP p l = [l] := by
  induction l with
  | nil => rfl
  | cons c cs ih =>
    have hc : p c = false := h c (by simp)
    have ih' : splitP p cs = [cs] := ih (fun x hx => h x (by simp [hx]))
    simp [splitP, hc, ih']

theorem splitP_append_sep (p : Char → Bool) (t rest : List Char) (c₀ : Char)
    (ht : ∀ c ∈ t, p c = false) (hc : p c₀ = true) :
    splitP p (t ++ c₀ :: rest) = t :: splitP p rest := by
  induction t with
  | nil => simp [splitP, hc]
  | cons c cs ih =>
    have hc' : p c = false := ht c (by simp)
    have ih' : splitP p (cs ++ c₀ :: rest) = cs :: splitP p rest :=
      ih (fun x hx => ht x (by simp [hx]))
    simp [splitP, hc', ih']

theorem mem_joinSep (sep : Char) (ts : List (List Char)) (c : Char)
    (h : c ∈ joinSep sep ts) : c = sep ∨ ∃ t ∈ ts, c ∈ t := by
  induction ts with
  | nil => simp [joinSep] at h
  | cons t ts ih =>
    cases ts with
    | nil =>
      simp only [joinSep] at h
      exact Or.inr ⟨t, by simp, h⟩
    | cons t' ts' =>
      simp only [joinSep, List.mem_append, List.mem_cons] at h
      rcases h with h | h | h
      · exact Or.inr ⟨t, by simp, h⟩
      · exact Or.inl h
      · rcases ih h with h' | ⟨u, hu, hcu⟩
        · exact Or.inl h'
        · exact Or.inr ⟨u, by simp [hu], hcu⟩

theorem splitP_joinSep (p : Char → Bool) (sep : Char) (ts : List (List Char))
    (hts : ts ≠ []) (hcl : ∀ t ∈ ts, ∀ c ∈ t, p c = false) (hsep : p sep = true) :
    splitP p (joinSep sep ts) = ts := by
  induction ts with
  | nil => exact absurd rfl hts
  | cons t ts ih =>
    cases ts with
    | nil =>
      simp only [joinSep]
      exact splitP_no_sep p t (hcl t (by simp))
    | cons t' ts' =>
      have h1 : splitP p (t ++ sep :: joinSep sep (t' :: ts')) =
          t :: splitP p (joinSep sep (t' :: ts')) :=
        splitP_append_sep p t _ sep (hcl t (by simp)) hsep
      have h2 : splitP p (joinSep sep (t' :: ts')) = t' :: ts' :=
        ih (by simp) (fun u hu c hc => hcl u (by simp [hu]) c hc)
      simp only [joinSep, h1, h2]

-- Helper lemmas: option traversal and the duration accumulation loop.

theorem mapO_cons (f : α → Option β) (a : α) (l : List α) :
    mapO f (a :: l) = match f a, mapO f l with
      | some b, some bs => some (b :: bs)
      | _, _ => none := rfl

theorem mapO_eq_none_of_mem (f : α → Option β) (l : List α) (a : α)
    (ha : a ∈ l) (hfa : f a = none) : mapO f l = none := by
  induction l with
  | nil => simp at ha
  | cons x xs ih =>
    rcases List.mem_cons.mp ha with h | h
    · subst h
      simp [mapO_cons, hfa]
    · cases hx : f x with
      | none => simp [mapO_cons, hx]
      | some b => simp [mapO_cons, hx, ih h]

theorem sumDurAux_eq (l : List Row) (t : Dec) :
    sumDurAux l t = (mapO rowDur? l).map (fun ds => t + ds.sum) := by
  induction l generalizing t with
  | nil => simp [sumDurAux, mapO]
  | cons row rest ih =>
    cases hd : rowDur? row with
    | none => simp [sumDurAux, hd, mapO_cons]
    | some d =>
      cases hm : mapO rowDur? rest with
      | none => simp [sumDurAux, hd, hm, mapO_cons, ih]
      | some ds =>
        simp [sumDurAux, hd, hm, mapO_cons, ih, Dec.add_assoc]

theorem sumDurAux_none_of_mem (l : List Row) (row : Row)
    (ha : row ∈ l) (hfa : rowDur? row = none) (t : Dec) : sumDurAux l t = none := by
  rw [sumDurAux_eq, mapO_eq_none_of_mem rowDur? l row ha hfa]
  rfl

theorem mapO_sum_perm {β : Type} [AddCommMonoid β] (f : α → Option β)
    (l₁ l₂ : List α) (h : l₁.Perm l₂) :
    (mapO f l₁).map List.sum = (mapO f l₂).map List.sum := by
  induction h with
  | nil => rfl
  | @cons x l₁' l₂' h ih =>
    simp only [mapO_cons]
    cases hfx : f x with
    | none => simp
    | some bx =>
      cases h1 : mapO f l₁' with
      | none =>
        cases h2 : mapO f l₂' with
        | none => simp
        | some s₂ =>
          exfalso
          rw [h1, h2] at ih
          simp at ih
      | some s₁ =>
        cases h2 : mapO f l₂' with
        | none =>
          exfalso
          rw [h1, h2] at ih
          simp at ih
        | some s₂ =>
          rw [h1, h2] at ih
          simp only [Option.map] at ih
          simp only [Option.some.injEq] at ih
          simp only [Option.map, Option.some.injEq, List.sum_cons, ih]
  | swap x y l =>
    simp only [mapO_cons]
    cases hfx : f x with
    | none =>
      cases hfy : f y <;> simp
    | some bx =>
      cases hfy : f y with
      | none => simp
      | some bY =>
        cases hl : mapO f l with
        | none => simp
        | some s =>
          simp only [Option.map, Option.some.injEq, List.sum_cons]
          rw [add_left_comm]
  | trans h₁ h₂ ih₁ ih₂ => exact ih₁.trans ih₂

-- Helper lemmas: the backwards substring search of Python rindex.

theorem rlook_some (s sub : List Char) (f i e : ℕ)
    (h : rlook s sub f i = some e) :
    f ≤ e ∧ e ≤ i ∧ sub <+: s.drop e := by
  induction i with
  | zero =>
    simp only [rlook] at h
    by_cases hc : f = 0 ∧ sub <+: s.drop 0
    · rw [if_pos hc] at h
      cases h
      exact ⟨Nat.le_of_eq hc.1, Nat.le_refl 0, hc.2⟩
    · rw [if_neg hc] at h
      cases h
  | succ i ih =>
    simp only [rlook] at h
    by_cases hc : f ≤ i + 1 ∧ sub <+: s.drop (i + 1)
    · rw [if_pos hc] at h
      cases h
      exact ⟨hc.1, Nat.le_refl _, hc.2⟩
    · rw [if_neg hc] at h
      rcases ih h with ⟨h1, h2, h3⟩
      exact ⟨h1, Nat.le_succ_of_le h2, h3⟩

theorem rlook_ge (s sub : List Char) (f i e : ℕ)
    (h : rlook s sub f i = some e) :
    ∀ j, f ≤ j → j ≤ i → sub <+: s.drop j → j ≤ e := by
  induction i with
  | zero =>
    intro j hf hj _
    rcases rlook_some s sub f 0 e h with ⟨_, _, _⟩
    omega
  | succ i ih =>
    intro j hf hj hocc
    simp only [rlook] at h
    by_cases hc : f ≤ i + 1 ∧ sub <+: s.drop (i + 1)
    · rw [if_pos hc] at h
      cases h
      exact hj
    · rw [if_neg hc] at h
      rcases Nat.lt_or_ge j (i + 1) with hlt | hge
      · exact ih h j hf (Nat.lt_succ_iff.mp hlt) hocc
      · exfalso
        have : j = i + 1 := by omega
        subst this
        exact hc ⟨hf, hocc⟩

theorem rlook_none (s sub : List Char) (f i : ℕ)
    (h : rlook s sub f i = none) :
    ∀ j, f ≤ j → j ≤ i → ¬ sub <+: s.drop j := by
  induction i with
  | zero =>
    intro j hf hj hocc
    have hj0 : j = 0 := Nat.le_zero.mp hj
    subst hj0
    simp only [rlook] at h
    rw [if_pos ⟨Nat.le_zero.mp hf, hocc⟩] at h
    cases h
  | succ i ih =>
    intro j hf hj hocc
    simp only [rlook] at h
    by_cases hc : f ≤ i + 1 ∧ sub <+: s.drop (i + 1)
    · rw [if_pos hc] at h
      cases h
    · rw [if_neg hc] at h
      rcases Nat.lt_or_ge j (i + 1) with hlt | hge
      · exact ih h j hf (Nat.lt_succ_iff.mp hlt) hocc
      · have : j = i + 1 := by omega
        subst this
        exact hc ⟨hf, hocc⟩

theorem occ_le_length (s sub : List Char) (j : ℕ)
    (hne : sub ≠ []) (h : sub <+: s.drop j) : j ≤ s.length := by
  have hlen : sub.length ≤ (s.drop j).length := h.length_le
  have hpos : 0 < sub.length := List.length_pos.mpr hne
  simp only [List.length_drop] at hlen
  omega

theorem rindexFrom_eq_some (s sub : List Char) (f e : ℕ)
    (he : f ≤ e) (hocc : sub <+: s.drop e)
    (hmax : ∀ j, f ≤ j → sub <+: s.drop j → j ≤ e) :
    rindexFrom s sub f = some e := by
  have hne : sub ≠ [] := by
    intro hnil
    subst hnil
    have h1 : (e + 1 : ℕ) ≤ e :=
      hmax (e + 1) (Nat.le_succ_of_le he) (List.nil_prefix)
    omega
  have hel : e ≤ s.length := occ_le_length s sub e hne hocc
  cases h : rindexFrom s sub f with
  | none =>
    exact absurd hocc (rlook_none s sub f s.length h e he hel)
  | some e' =>
    rcases rlook_some s sub f s.length e' h with ⟨h1, h2, h3⟩
    have hle : e' ≤ e := hmax e' h1 h3
    have hge : e ≤ e' := rlook_ge s sub f s.length e' h e he hel hocc
    rw [Nat.le_antisymm hle hge]

theorem rindexFrom_eq_none (s sub : List Char) (f : ℕ)
    (h : ¬ ∃ j, f ≤ j ∧ sub <+: s.drop j) :
    rindexFrom s sub f = none := by
  cases he : rindexFrom s sub f with
  | none => rfl
  | some e =>
    rcases rlook_some s sub f s.length e he with ⟨h1, _, h3⟩
    exact absurd ⟨e, h1, h3⟩ h

theorem greatest_occ_from_check (s sub : List Char) (f e : ℕ)
    (hne : sub ≠ [])
    (hall : ((List.range (s.length + 1)).filter
        (fun j => decide (f ≤ j) && decide (sub <+: s.drop j))).all
        (fun j => decide (j ≤ e)) = true) :
    ∀ j, f ≤ j → sub <+: s.drop j → j ≤ e := by
  intro j hf hocc
  have hjl : j ≤ s.length := occ_le_length s sub j hne hocc
  have hmem : j ∈ (List.range (s.length + 1)).filter
      (fun j => decide (f ≤ j) && decide (sub <+: s.drop j)) := by
    rw [List.mem_filter]
    refine ⟨List.mem_range.mpr (by omega), ?_⟩
    simp [hf, hocc]
  have := List.all_eq_true.mp hall j hmem
  simpa using this

-- Helper lemmas: substring containment of the main flow's marker check.

theorem containsSub_eq_false_iff (s sub : List Char) :
    containsSub s sub = false ↔ ¬ ∃ j, sub <+: s.drop j := by
  constructor
  · intro h ⟨j, hocc⟩
    have hfind : lfind s sub = none := by
      cases hl : lfind s sub with
      | none => rfl
      | some i =>
        rw [containsSub, hl] at h
        simp at h
    have hnone := List.find?_eq_none.mp hfind
    by_cases hj : j ≤ s.length
    · exact hnone j (List.mem_range.mpr (by omega)) (by simpa using hocc)
    · have hj' : s.length ≤ j := by omega
      have hdrop : s.drop j = [] := List.drop_eq_nil_of_le hj'
      rw [hdrop] at hocc
      have hnil : sub = [] := List.prefix_nil.mp hocc
      subst hnil
      exact hnone 0 (List.mem_range.mpr (by omega))
        (by simp [List.nil_prefix])
  · intro h
    rw [containsSub]
    cases hl : lfind s sub with
    | none => rfl
    | some i =>
      exfalso
      have hp := List.find?_some hl
      exact h ⟨i, by simpa using hp⟩

-- Helper lemmas: the sequencing pass.

theorem calculate_pattern_duration_eq (data : List Row) (first : Row)
    (st : Dec) (ds : List Dec)
    (hhd : data.head? = some first) (hst : rowStart? first = some st)
    (hds : mapO rowDur? data = some ds) :
    calculate_pattern_duration data = some (Dec.round4 (st + ds.sum)) := by
  simp [calculate_pattern_duration, hhd, hst, sumDurAux_eq, hds]

theorem calculate_pattern_duration_none_of_dur (data : List Row) (row : Row)
    (ha : row ∈ data) (hd : rowDur? row = none) :
    calculate_pattern_duration data = none := by
  cases hhd : data.head? with
  | none => simp [calculate_pattern_duration, hhd]
  | some first =>
    cases hst : rowStart? first with
    | none => simp [calculate_pattern_duration, hhd, hst]
    | some t0 =>
      simp [calculate_pattern_duration, hhd, hst,
        sumDurAux_none_of_mem data row ha hd t0]

theorem calculate_pattern_duration_none_of_start (data : List Row)
    (h : data.head?.bind rowStart? = none) :
    calculate_pattern_duration data = none := by
  cases hhd : data.head? with
  | none => simp [calculate_pattern_duration, hhd]
  | some first =>
    rw [hhd] at h
    simp only [Option.some_bind] at h
    simp [calculate_pattern_duration, hhd, h]

theorem calculate_pattern_duration_some_start (data : List Row) (l : Dec)
    (h : calculate_pattern_duration data = some l) :
    ∃ first st, data.head? = some first ∧ rowStart? first = some st := by
  cases hhd : data.head? with
  | none => simp [calculate_pattern_duration, hhd] at h
  | some first =>
    cases hst : rowStart? first with
    | none => simp [calculate_pattern_duration, hhd, hst] at h
    | some st => exact ⟨first, st, rfl, hst⟩

theorem initiate_clips_true (song_tempo : ℤ) (m d b : List Row)
    (h : (initiate_clips song_tempo m d b).2 = true) :
    (∃ lm, calculate_pattern_duration m = some lm)
    ∧ (∃ ld, calculate_pattern_duration d = some ld)
    ∧ (∃ lb, calculate_pattern_duration b = some lb) := by
  rw [initiate_clips] at h
  cases hm : calculate_pattern_duration m with
  | none => rw [hm] at h; simp at h
  | some lm =>
    cases hd : calculate_pattern_duration d with
    | none => rw [hm, hd] at h; simp at h
    | some ld =>
      cases hb : calculate_pattern_duration b with
      | none => rw [hm, hd, hb] at h; simp at h
      | some lb => exact ⟨⟨lm, rfl⟩, ⟨ld, rfl⟩, ⟨lb, rfl⟩⟩

theorem rowTriple_parts (row : Row) (p v : ℤ) (d : Dec)
    (h : rowTriple? row = some (p, v, d)) :
    rowPitch? row = some p ∧ rowVel? row = some v ∧ rowDur? row = some d := by
  rw [rowTriple?] at h
  cases hp : rowPitch? row with
  | none => rw [hp] at h; cases h
  | some p' =>
    cases hv : rowVel? row with
    | none => rw [hp, hv] at h; cases h
    | some v' =>
      cases hd : rowDur? row with
      | none => rw [hp, hv, hd] at h; cases h
      | some d' =>
        rw [hp, hv, hd] at h
        cases h
        exact ⟨rfl, rfl, rfl⟩

theorem send_track_events_of_mapO (slot : ℕ) (rows : List Row)
    (tri : List (ℤ × ℤ × Dec)) (h : mapO rowTriple? rows = some tri) :
    ∀ pointer, send_track_events slot pointer rows = (noteCmds slot pointer tri, true) := by
  induction rows generalizing tri with
  | nil =>
    intro pointer
    cases tri with
    | nil => rfl
    | cons t ts => simp [mapO] at h
  | cons row rest ih =>
    intro pointer
    cases htr : rowTriple? row with
    | none => rw [mapO_cons, htr] at h; cases h
    | some pvd =>
      cases hm : mapO rowTriple? rest with
      | none => rw [mapO_cons, htr, hm] at h; cases h
      | some ts =>
        rw [mapO_cons, htr, hm] at h
        cases h
        rcases pvd with ⟨p, v, d⟩
        rcases rowTriple_parts row p v d htr with ⟨hp, hv, hd⟩
        simp [send_track_events, hp, hv, hd, ih ts hm, noteCmds]

theorem send_track_events_fails (slot : ℕ) (rows : List Row) (row : Row)
    (hmem : row ∈ rows)
    (hbad : rowPitch? row = none ∨ rowVel? row = none ∨ rowDur? row = none) :
    ∀ pointer, (send_track_events slot pointer rows).2 = false := by
  induction rows with
  | nil => simp at hmem
  | cons r rest ih =>
    intro pointer
    cases hp : rowPitch? r with
    | none => simp [send_track_events, hp]
    | some p =>
      cases hv : rowVel? r with
      | none => simp [send_track_events, hp, hv]
      | some v =>
        cases hd : rowDur? r with
        | none => simp [send_track_events, hp, hv, hd]
        | some d =>
          rcases List.mem_cons.mp hmem with heq | hmem'
          · subst heq
            rcases hbad with hb | hb | hb
            · rw [hp] at hb; cases hb
            · rw [hv] at hb; cases hb
            · rw [hd] at hb; cases hb
          · simp [send_track_events, hp, hv, hd, ih hmem']

theorem send_events_track_of (slot : ℕ) (data : List Row) (first : Row)
    (st : Dec) (tri : List (ℤ × ℤ × Dec))
    (hhd : data.head? = some first) (hst : rowStart? first = some st)
    (htri : mapO rowTriple? data = some tri) :
    send_events_track slot data = (noteCmds slot st tri, true) := by
  cases data with
  | nil => cases hhd
  | cons r rest =>
    have hr : r = first := by
      simp only [List.head?] at hhd
      cases hhd
      rfl
    subst hr
    simp [send_events_track, hst, send_track_events_of_mapO slot _ tri htri st]

theorem send_events_track_fails (slot : ℕ) (data : List Row) (row : Row)
    (hmem : row ∈ data)
    (hbad : rowPitch? row = none ∨ rowVel? row = none ∨ rowDur? row = none)
    (hstart : ∃ first st, data.head? = some first ∧ rowStart? first = some st) :
    (send_events_track slot data).2 = false := by
  cases data with
  | nil => simp at hmem
  | cons r rest =>
    rcases hstart with ⟨first, st, hhd, hst⟩
    have hr : r = first := by
      simp only [List.head?] at hhd
      cases hhd
      rfl
    subst hr
    simp [send_events_track, hst, send_track_events_fails slot _ row hmem hbad st]

-- Claim theorems.

/-- Claim C5: for every text and start/end marker pair, `find_substring`
returns the substring strictly between the last occurrence of the start
marker and the last occurrence of the end marker at or after that
position, and returns the empty string when the start marker is found but
no end-marker occurrence exists after it. -/
theorem find_substring_spec (s start e : List Char) (i : ℕ)
    (hi : start <+: s.drop i) (him : ∀ j, start <+: s.drop j → j ≤ i) :
    (∀ k, i + start.length ≤ k → e <+: s.drop k →
      (∀ j, i + start.length ≤ j → e <+: s.drop j → j ≤ k) →
      find_substring s start e = (s.take k).drop (i + start.length))
    ∧ ((¬ ∃ k, i + start.length ≤ k ∧ e <+: s.drop k) →
      find_substring s start e = []) := by
  have hrs : rindex s start = some i :=
    rindexFrom_eq_some s start 0 i (Nat.zero_le i) hi (fun j _ hj => him j hj)
  constructor
  · intro k hk hocc hmax
    have hre : rindexFrom s e (i + start.length) = some k :=
      rindexFrom_eq_some s e _ k hk hocc hmax
    simp [find_substring, hrs, hre]
  · intro hno
    have hre : rindexFrom s e (i + start.length) = none :=
      rindexFrom_eq_none s e _ hno
    simp [find_substring, hrs, hre]

/-- Witness for C5: in `"xMyMzDwDv"` with markers `"M"` and `"D"`, the
last `"M"` is at index 3 and the last `"D"` at or after it is at index 7,
so the extracted substring is `"zDw"` (which contains the earlier `"D"`). -/
theorem find_substring_spec_witness :
    find_substring ("xMyMzDwDv").data ("M").data ("D").data = ("zDw").data :=
  (find_substring_spec ("xMyMzDwDv").data ("M").data ("D").data 3
      (by decide)
      (fun j hj => greatest_occ_from_check ("xMyMzDwDv").data ("M").data 0 3
        (by decide) (by decide) j (Nat.zero_le j) hj)).1
    7 (by decide) (by decide)
    (greatest_occ_from_check ("xMyMzDwDv").data ("D").data 4 7
      (by decide) (by decide))

/-- Claim C9: `parse_table_to_list` is total — it returns `none` exactly
on the empty string, and otherwise a list of rows, each with at least
`len(SCHEMA)` string tokens, taken in original line order (a sublist of
the field-splits of all lines); it performs no numeric conversion. -/
theorem parse_table_total_spec (data : List Char) (valid : List ℕ) :
    (parse_table_to_list data valid = none ↔ data = [])
    ∧ ∀ rows, parse_table_to_list data valid = some rows →
      (∀ r ∈ rows, SCHEMA.length ≤ r.length)
      ∧ rows.Sublist ((splitP isNl data).map (splitP isWs)) := by
  by_cases hd : data = []
  · refine ⟨by simp [parse_table_to_list, hd], ?_⟩
    intro rows h
    rw [parse_table_to_list, if_pos hd] at h
    cases h
  · refine ⟨by simp [parse_table_to_list, hd], ?_⟩
    intro rows h
    rw [parse_table_to_list, if_neg hd] at h
    injection h with h'
    subst h'
    constructor
    · intro r hr
      have hlen := (List.mem_filter.mp hr).2
      exact of_decide_eq_true hlen
    · exact List.Sublist.trans (List.filter_sublist _)
        (List.Sublist.map _ (List.filter_sublist _))

/-- Witness for C9: the empty string parses to `none`, and a one-row
table parses to a single 4-token row that is a sublist of its line
splits. -/
theorem parse_table_total_spec_witness :
    parse_table_to_list [] VALID_MIDI_NOTES = none
    ∧ ((∀ r ∈ [[("60").data, ("0.0").data, ("0.5").data, ("100").data]],
        SCHEMA.length ≤ r.length)
      ∧ ([[("60").data, ("0.0").data, ("0.5").data, ("100").data]] : List Row).Sublist
        ((splitP isNl ("60 0.0 0.5 100").data).map (splitP isWs))) :=
  ⟨(parse_table_total_spec [] VALID_MIDI_NOTES).1.mpr rfl,
   (parse_table_total_spec ("60 0.0 0.5 100").data VALID_MIDI_NOTES).2
     [[("60").data, ("0.0").data, ("0.5").data, ("100").data]] (by decide)⟩

/-- Counterexample to C2 as stated: the line `"300 0.0 0.5 100"` is kept
by `parse_table_to_list` although its leading token `"300"` is not the
decimal representation of any integer in the valid pitch range — the
source guard is `startswith`, a string-prefix test, and `"300"` starts
with `"30"`. -/
theorem parse_guard_prefix_cex :
    parse_table_to_list ("300 0.0 0.5 100").data VALID_MIDI_NOTES
      = some [[("300").data, ("0.0").data, ("0.5").data, ("100").data]]
    ∧ (splitP isWs ("300 0.0 0.5 100").data).head? = some ("300").data
    ∧ ∀ n ∈ VALID_MIDI_NOTES, Nat.toDigits 10 n ≠ ("300").data := by
  decide

/-- Claim C2 as amended: a line is kept as a candidate row only if it is
non-empty and some integer of the valid pitch range has a decimal
representation that is a string prefix of the whole line (not necessarily
its full leading token); every kept row is the field-split of such a line
and has at least `len(SCHEMA)` fields, and lines failing the guard are
excluded without any error being raised. -/
theorem parse_rows_sourced (data : List Char) (valid : List ℕ) (rows : List Row)
    (hp : parse_table_to_list data valid = some rows) :
    ∀ r ∈ rows, ∃ line ∈ splitP isNl data,
      r = splitP isWs line ∧ line ≠ []
      ∧ (∃ n ∈ valid, Nat.toDigits 10 n <+: line)
      ∧ SCHEMA.length ≤ r.length := by
  by_cases hd : data = []
  · rw [parse_table_to_list, if_pos hd] at hp
    cases hp
  · rw [parse_table_to_list, if_neg hd] at hp
    injection hp with hp'
    subst hp'
    intro r hr
    rcases List.mem_filter.mp hr with ⟨hmap, hlen⟩
    rcases List.mem_map.mp hmap with ⟨line, hline, hsplit⟩
    rcases List.mem_filter.mp hline with ⟨hmem, hguard⟩
    simp only [Bool.and_eq_true, decide_eq_true_eq] at hguard
    exact ⟨line, hmem, hsplit.symm, hguard.1, hguard.2, of_decide_eq_true hlen⟩

/-- Witness for C2 (amended): the kept row of the table
`"60 0.0 0.5 100"` comes from a non-empty line with a valid-note decimal
prefix and has 4 fields. -/
theorem parse_rows_sourced_witness :
    ∃ line ∈ splitP isNl ("60 0.0 0.5 100").data,
      [("60").data, ("0.0").data, ("0.5").data, ("100").data] = splitP isWs line
      ∧ line ≠ []
      ∧ (∃ n ∈ VALID_MIDI_NOTES, Nat.toDigits 10 n <+: line)
      ∧ SCHEMA.length ≤
        ([("60").data, ("0.0").data, ("0.5").data, ("100").data] : Row).length :=
  parse_rows_sourced ("60 0.0 0.5 100").data VALID_MIDI_NOTES
    [[("60").data, ("0.0").data, ("0.5").data, ("100").data]] (by decide)
    [("60").data, ("0.0").data, ("0.5").data, ("100").data] (by decide)

/-- Counterexample to C7 as stated: in the row `"60  0.5 0.25 100"` (two
spaces after the pitch) the source splits at every single tab or space, so
consecutive separators do introduce an empty field, which lands in the
start_time column. -/
theorem parse_split_empty_field_cex :
    parse_table_to_list ("60  0.5 0.25 100").data VALID_MIDI_NOTES
      = some [[("60").data, [], ("0.5").data, ("0.25").data, ("100").data]]
    ∧ ([("60").data, [], ("0.5").data, ("0.25").data, ("100").data] : Row).get?
        (SCHEMA.findIdx (fun s => s == START_TIME)) = some [] := by
  decide

/-- Claim C7 as amended: fields are obtained by splitting a candidate row
at every single tab or space character (so consecutive separators yield
empty fields); a row is kept only with at least `len(SCHEMA)` fields, the
first four mapping positionally to pitch, start_time, duration, velocity
with extra trailing tokens ignored by position — so a single-space-joined
row whose tokens are separator-free, whose leading token is the decimal
form of a valid note, and which has at least 4 tokens parses to exactly
that one token list. -/
theorem parse_single_row_positional (valid : List ℕ) (ts : List (List Char))
    (n : ℕ) (P : List Char)
    (hn : n ∈ valid) (hhd : ts.head? = some P) (hP : P = Nat.toDigits 10 n)
    (hlen : SCHEMA.length ≤ ts.length)
    (hclean : ∀ t ∈ ts, ∀ c ∈ t, isWs c = false ∧ isNl c = false) :
    parse_table_to_list (joinSep ' ' ts) valid = some [ts]
    ∧ SCHEMA.findIdx (fun s => s == PITCH) = 0
    ∧ SCHEMA.findIdx (fun s => s == START_TIME) = 1
    ∧ SCHEMA.findIdx (fun s => s == DURATION) = 2
    ∧ SCHEMA.findIdx (fun s => s == VELOCITY) = 3 := by
  refine ⟨?_, by decide, by decide, by decide, by decide⟩
  cases ts with
  | nil => exact absurd hlen (by decide)
  | cons t rest =>
    have ht : t = P := by
      simp only [List.head?] at hhd
      cases hhd
      rfl
    subst ht
    cases rest with
    | nil =>
      have h1 : ([t] : List (List Char)).length = 1 := rfl
      rw [h1] at hlen
      exact absurd hlen (by decide)
    | cons t2 rest2 =>
      have hrow2 : joinSep ' ' (t :: t2 :: rest2)
          = t ++ ' ' :: joinSep ' ' (t2 :: rest2) := rfl
      have hne : joinSep ' ' (t :: t2 :: rest2) ≠ [] := by
        rw [hrow2]
        intro hcontra
        rcases List.append_eq_nil.mp hcontra with ⟨_, h2⟩
        cases h2
      have hnl : ∀ c ∈ joinSep ' ' (t :: t2 :: rest2), isNl c = false := by
        intro c hc
        rcases mem_joinSep ' ' _ c hc with hsep | ⟨t', ht', hct'⟩
        · subst hsep
          rfl
        · exact (hclean t' ht' c hct').2
      have hws : ∀ t' ∈ (t :: t2 :: rest2), ∀ c ∈ t', isWs c = false :=
        fun t' ht' c hc => (hclean t' ht' c hc).1
      have hsplitNl : splitP isNl (joinSep ' ' (t :: t2 :: rest2))
          = [joinSep ' ' (t :: t2 :: rest2)] := splitP_no_sep _ _ hnl
      have hsplitWs : splitP isWs (joinSep ' ' (t :: t2 :: rest2))
          = t :: t2 :: rest2 :=
        splitP_joinSep isWs ' ' _ (by simp) hws (by decide)
      have hpre : Nat.toDigits 10 n <+: joinSep ' ' (t :: t2 :: rest2) := by
        rw [hrow2, ← hP]
        exact ⟨' ' :: joinSep ' ' (t2 :: rest2), rfl⟩
      have hguard : (decide (joinSep ' ' (t :: t2 :: rest2) ≠ []) &&
          decide (∃ m ∈ valid,
            Nat.toDigits 10 m <+: joinSep ' ' (t :: t2 :: rest2))) = true := by
        simp only [Bool.and_eq_true, decide_eq_true_eq]
        exact ⟨hne, n, hn, hpre⟩
      rw [parse_table_to_list, if_neg hne, hsplitNl]
      simp only [List.filter, hguard, List.map, hsplitWs]
      have hkeep : decide (SCHEMA.length ≤ rest2.length + 1 + 1) = true :=
        decide_eq_true (by simpa using hlen)
      simp [hkeep]

/-- Witness for C7 (amended): the row `"60 0.5 0.25 100"` parses to the
single token row, with the schema's positional index map. -/
theorem parse_single_row_positional_witness :
    parse_table_to_list
        (joinSep ' ' [("60").data, ("0.5").data, ("0.25").data, ("100").data])
        VALID_MIDI_NOTES
      = some [[("60").data, ("0.5").data, ("0.25").data, ("100").data]]
    ∧ SCHEMA.findIdx (fun s => s == PITCH) = 0
    ∧ SCHEMA.findIdx (fun s => s == START_TIME) = 1
    ∧ SCHEMA.findIdx (fun s => s == DURATION) = 2
    ∧ SCHEMA.findIdx (fun s => s == VELOCITY) = 3 :=
  parse_single_row_positional VALID_MIDI_NOTES
    [("60").data, ("0.5").data, ("0.25").data, ("100").data] 60 ("60").data
    (by decide) (by decide) (by decide) (by decide) (by decide)

/-- Claim C3: for every non-empty parsed track whose tokens convert,
`calculate_pattern_duration` returns the first row's start_time plus the
sum of every row's duration, rounded to 4 decimal digits; permuting the
rows other than the first never changes the result, while a permutation
that changes which row is first can change it. -/
theorem calculate_pattern_duration_spec :
    (∀ (data : List Row) (first : Row) (st : Dec) (ds : List Dec),
      data.head? = some first → rowStart? first = some st →
      mapO rowDur? data = some ds →
      calculate_pattern_duration data = some (Dec.round4 (st + ds.sum)))
    ∧ (∀ (first : Row) (rest rest' : List Row), rest.Perm rest' →
      calculate_pattern_duration (first :: rest)
        = calculate_pattern_duration (first :: rest'))
    ∧ (∃ r r' : Row, ([r, r'] : List Row).Perm [r', r]
        ∧ calculate_pattern_duration [r, r']
          ≠ calculate_pattern_duration [r', r]) := by
  refine ⟨calculate_pattern_duration_eq, ?_, ?_⟩
  · intro first rest rest' hperm
    have hperm' : (first :: rest).Perm (first :: rest') := hperm.cons first
    simp only [calculate_pattern_duration, List.head?]
    cases hst : rowStart? first with
    | none => rfl
    | some t0 =>
      show Option.map Dec.round4 (sumDurAux (first :: rest) t0)
        = Option.map Dec.round4 (sumDurAux (first :: rest') t0)
      rw [sumDurAux_eq, sumDurAux_eq]
      have h := mapO_sum_perm rowDur? _ _ hperm'
      have e : ∀ l : List Row, (mapO rowDur? l).map (fun ds => t0 + ds.sum)
          = ((mapO rowDur? l).map List.sum).map (fun s => t0 + s) := by
        intro l
        cases mapO rowDur? l <;> rfl
      rw [e, e, h]
  · refine ⟨[("60").data, ("0.0").data, ("1").data, ("100").data],
      [("60").data, ("0.5").data, ("1").data, ("100").data],
      List.Perm.swap _ _ _, ?_⟩
    decide

/-- Witness for C3: a two-row melody starting at 0.0 with durations 0.5
and 0.5 has pattern duration `round4(0.0 + (0.5 + 0.5))`. -/
theorem calculate_pattern_duration_spec_witness :
    calculate_pattern_duration
        [[("60").data, ("0.0").data, ("0.5").data, ("100").data],
         [("64").data, ("0.5").data, ("0.5").data, ("100").data]]
      = some (Dec.round4 ((⟨0, 1⟩ : Dec) + ([⟨5, 1⟩, ⟨5, 1⟩] : List Dec).sum)) :=
  calculate_pattern_duration_spec.1
    [[("60").data, ("0.0").data, ("0.5").data, ("100").data],
     [("64").data, ("0.5").data, ("0.5").data, ("100").data]]
    [("60").data, ("0.0").data, ("0.5").data, ("100").data]
    ⟨0, 1⟩ [⟨5, 1⟩, ⟨5, 1⟩] (by decide) (by decide) (by decide)

/-- Claim C1: for a trio of non-empty parsed tracks all of whose numeric
fields convert, the emitted stream is exactly one set-tempo command, then
for slots 0, 1, 2 a delete-clip immediately followed by a create-clip
carrying that track's pattern duration, then for slots 0, 1, 2 one
add-note per event in row order carrying (slot, clip 0, pitch, pointer,
duration, velocity, mute 0), the pointer starting at the track's first
event's start_time and advancing by each duration. -/
theorem run_commands_stream (tempo : ℤ) (m d b : List Row)
    (fm fd fb : Row) (sm sd sb : Dec)
    (tm td tb : List (ℤ × ℤ × Dec)) (lm ld lb : Dec)
    (hm : m.head? = some fm) (hsm : rowStart? fm = some sm)
    (htm : mapO rowTriple? m = some tm)
    (hlm : calculate_pattern_duration m = some lm)
    (hd : d.head? = some fd) (hsd : rowStart? fd = some sd)
    (htd : mapO rowTriple? d = some td)
    (hld : calculate_pattern_duration d = some ld)
    (hb : b.head? = some fb) (hsb : rowStart? fb = some sb)
    (htb : mapO rowTriple? b = some tb)
    (hlb : calculate_pattern_duration b = some lb) :
    run_commands tempo m d b =
      ([Command.setTempo tempo,
        Command.deleteClip 0 0, Command.createClip 0 0 lm,
        Command.deleteClip 1 0, Command.createClip 1 0 ld,
        Command.deleteClip 2 0, Command.createClip 2 0 lb]
        ++ (noteCmds 0 sm tm ++ noteCmds 1 sd td ++ noteCmds 2 sb tb), true) := by
  have hi : initiate_clips tempo m d b =
      ([Command.setTempo tempo,
        Command.deleteClip 0 0, Command.createClip 0 0 lm,
        Command.deleteClip 1 0, Command.createClip 1 0 ld,
        Command.deleteClip 2 0, Command.createClip 2 0 lb], true) := by
    simp [initiate_clips, hlm, hld, hlb]
  have hse : send_events m d b =
      (noteCmds 0 sm tm ++ noteCmds 1 sd td ++ noteCmds 2 sb tb, true) := by
    simp [send_events, send_events_track_of 0 m fm sm tm hm hsm htm,
      send_events_track_of 1 d fd sd td hd hsd htd,
      send_events_track_of 2 b fb sb tb hb hsb htb]
  simp [run_commands, hi, hse]

/-- Witness for C1: the round-trip example — two melody events, one drum
event, one bass event — yields the tempo command, three delete/create
pairs with the three pattern lengths, then the four note commands with
running pointers. -/
theorem run_commands_stream_witness :
    run_commands 60
        [[("60").data, ("0.0").data, ("0.5").data, ("100").data],
         [("64").data, ("0.5").data, ("0.5").data, ("100").data]]
        [[("36").data, ("0.0").data, ("1.0").data, ("120").data]]
        [[("40").data, ("0.0").data, ("1.0").data, ("90").data]] =
      ([Command.setTempo 60,
        Command.deleteClip 0 0, Command.createClip 0 0 ⟨10000, 4⟩,
        Command.deleteClip 1 0, Command.createClip 1 0 ⟨10000, 4⟩,
        Command.deleteClip 2 0, Command.createClip 2 0 ⟨10000, 4⟩]
        ++ (noteCmds 0 ⟨0, 1⟩ [(60, 100, ⟨5, 1⟩), (64, 100, ⟨5, 1⟩)]
          ++ noteCmds 1 ⟨0, 1⟩ [(36, 120, ⟨10, 1⟩)]
          ++ noteCmds 2 ⟨0, 1⟩ [(40, 90, ⟨10, 1⟩)]), true) :=
  run_commands_stream 60
    [[("60").data, ("0.0").data, ("0.5").data, ("100").data],
     [("64").data, ("0.5").data, ("0.5").data, ("100").data]]
    [[("36").data, ("0.0").data, ("1.0").data, ("120").data]]
    [[("40").data, ("0.0").data, ("1.0").data, ("90").data]]
    [("60").data, ("0.0").data, ("0.5").data, ("100").data]
    [("36").data, ("0.0").data, ("1.0").data, ("120").data]
    [("40").data, ("0.0").data, ("1.0").data, ("90").data]
    ⟨0, 1⟩ ⟨0, 1⟩ ⟨0, 1⟩
    [(60, 100, ⟨5, 1⟩), (64, 100, ⟨5, 1⟩)] [(36, 120, ⟨10, 1⟩)] [(40, 90, ⟨10, 1⟩)]
    ⟨10000, 4⟩ ⟨10000, 4⟩ ⟨10000, 4⟩
    (by decide) (by decide) (by decide) (by decide)
    (by decide) (by decide) (by decide) (by decide)
    (by decide) (by decide) (by decide) (by decide)

/-- Counterexample to C4 as stated: with a drum table whose duration token
`"abc"` makes the pattern-duration computation fail, the aborted run has
already emitted the set-tempo command, so the command stream is not
empty. -/
theorem tempo_sent_despite_failure_cex :
    (run_commands 60
        [[("60").data, ("0.0").data, ("0.5").data, ("100").data]]
        [[("36").data, ("0.0").data, ("abc").data, ("120").data]]
        [[("40").data, ("0.0").data, ("1.0").data, ("90").data]]).2 = false
    ∧ calculate_pattern_duration
        [[("36").data, ("0.0").data, ("abc").data, ("120").data]] = none
    ∧ (run_commands 60
        [[("60").data, ("0.0").data, ("0.5").data, ("100").data]]
        [[("36").data, ("0.0").data, ("abc").data, ("120").data]]
        [[("40").data, ("0.0").data, ("1.0").data, ("90").data]]).1
      = [Command.setTempo 60] := by
  decide

/-- Claim C4 as amended: if computing any of the three pattern durations
fails, the run aborts after emitting exactly the set-tempo command and
before any delete-clip or create-clip command — all three durations are
computed before any clip command, but the set-tempo command precedes the
validation. -/
theorem run_aborts_after_tempo (tempo : ℤ) (m d b : List Row)
    (h : calculate_pattern_duration m = none
      ∨ calculate_pattern_duration d = none
      ∨ calculate_pattern_duration b = none) :
    run_commands tempo m d b = ([Command.setTempo tempo], false) := by
  have hi : initiate_clips tempo m d b = ([Command.setTempo tempo], false) := by
    cases hm : calculate_pattern_duration m with
    | none => simp [initiate_clips, hm]
    | some lm =>
      cases hdc : calculate_pattern_duration d with
      | none => simp [initiate_clips, hm, hdc]
      | some ld =>
        cases hbc : calculate_pattern_duration b with
        | none => simp [initiate_clips, hm, hdc, hbc]
        | some lb =>
          exfalso
          rcases h with h | h | h
          · rw [hm] at h
            cases h
          · rw [hdc] at h
            cases h
          · rw [hbc] at h
            cases h
  simp [run_commands, hi]

/-- Witness for C4 (amended): the aborted run of the counterexample input
emits exactly the set-tempo command. -/
theorem run_aborts_after_tempo_witness :
    run_commands 60
        [[("60").data, ("0.0").data, ("0.5").data, ("100").data]]
        [[("36").data, ("0.0").data, ("abc").data, ("120").data]]
        [[("40").data, ("0.0").data, ("1.0").data, ("90").data]]
      = ([Command.setTempo 60], false) :=
  run_aborts_after_tempo 60
    [[("60").data, ("0.0").data, ("0.5").data, ("100").data]]
    [[("36").data, ("0.0").data, ("abc").data, ("120").data]]
    [[("40").data, ("0.0").data, ("1.0").data, ("90").data]]
    (Or.inr (Or.inl (by decide)))

/-- Counterexample to C6 as stated: the melody row `"64 abc 0.5 100"`
passes the pitch and column-count guards and its start_time token `"abc"`
is unparseable, yet — being a non-first row — that token is never
converted, so the whole run completes successfully instead of aborting. -/
theorem nonfirst_start_time_unchecked_cex :
    gpt_main
        ("Melody\n60 0.0 0.5 100\n64 abc 0.5 100\nDrum\n36 0.0 1.0 120\nBass\n40 0.0 1.0 90\n").data
      = RunResult.ran
        [Command.setTempo 60,
         Command.deleteClip 0 0, Command.createClip 0 0 ⟨10000, 4⟩,
         Command.deleteClip 1 0, Command.createClip 1 0 ⟨10000, 4⟩,
         Command.deleteClip 2 0, Command.createClip 2 0 ⟨10000, 4⟩,
         Command.addNote 0 0 60 ⟨0, 1⟩ ⟨5, 1⟩ 100 0,
         Command.addNote 0 0 64 ⟨5, 1⟩ ⟨5, 1⟩ 100 0,
         Command.addNote 1 0 36 ⟨0, 1⟩ ⟨10, 1⟩ 120 0,
         Command.addNote 2 0 40 ⟨0, 1⟩ ⟨10, 1⟩ 90 0] true
    ∧ pyFloat? ("abc").data = none := by
  decide

/-- Claim C6 as amended: a guarded row's unparseable duration (any row),
pitch or velocity (any row), or an unparseable start_time in a track's
first row makes the run abort with a fatal conversion error; the
start_time tokens of non-first rows are never converted. -/
theorem run_aborts_on_bad_guarded_field (tempo : ℤ) (m d b : List Row)
    (h : (∃ row, (row ∈ m ∨ row ∈ d ∨ row ∈ b) ∧
        (rowPitch? row = none ∨ rowVel? row = none ∨ rowDur? row = none))
      ∨ m.head?.bind rowStart? = none
      ∨ d.head?.bind rowStart? = none
      ∨ b.head?.bind rowStart? = none) :
    (run_commands tempo m d b).2 = false := by
  cases hi : (initiate_clips tempo m d b).2 with
  | false => simp [run_commands, hi]
  | true =>
    rcases initiate_clips_true tempo m d b hi with ⟨⟨lm, hlm⟩, ⟨ld, hld⟩, ⟨lb, hlb⟩⟩
    have hsm := calculate_pattern_duration_some_start m lm hlm
    have hsd := calculate_pattern_duration_some_start d ld hld
    have hsb := calculate_pattern_duration_some_start b lb hlb
    rcases h with ⟨row, hmem, hbad⟩ | hs | hs | hs
    · rcases hmem with hmm | hmm | hmm
      · have hfail := send_events_track_fails 0 m row hmm hbad hsm
        have hs2 : (send_events m d b).2 = false := by
          simp [send_events, hfail]
        simp [run_commands, hi, hs2]
      · cases hm0 : (send_events_track 0 m).2 with
        | false =>
          have hs2 : (send_events m d b).2 = false := by
            simp [send_events, hm0]
          simp [run_commands, hi, hs2]
        | true =>
          have hfail := send_events_track_fails 1 d row hmm hbad hsd
          have hs2 : (send_events m d b).2 = false := by
            simp [send_events, hm0, hfail]
          simp [run_commands, hi, hs2]
      · cases hm0 : (send_events_track 0 m).2 with
        | false =>
          have hs2 : (send_events m d b).2 = false := by
            simp [send_events, hm0]
          simp [run_commands, hi, hs2]
        | true =>
          cases hd0 : (send_events_track 1 d).2 with
          | false =>
            have hs2 : (send_events m d b).2 = false := by
              simp [send_events, hm0, hd0]
            simp [run_commands, hi, hs2]
          | true =>
            have hfail := send_events_track_fails 2 b row hmm hbad hsb
            have hs2 : (send_events m d b).2 = false := by
              simp [send_events, hm0, hd0, hfail]
            simp [run_commands, hi, hs2]
    · rcases hsm with ⟨f1, s1, hh1, hst1⟩
      rw [hh1] at hs
      simp [hst1] at hs
    · rcases hsd with ⟨f1, s1, hh1, hst1⟩
      rw [hh1] at hs
      simp [hst1] at hs
    · rcases hsb with ⟨f1, s1, hh1, hst1⟩
      rw [hh1] at hs
      simp [hst1] at hs

/-- Witness for C6 (amended): a melody row whose velocity token `"1x0"`
does not convert makes the run abort. -/
theorem run_aborts_on_bad_guarded_field_witness :
    (run_commands 60
        [[("60").data, ("0.0").data, ("0.5").data, ("1x0").data]]
        [[("36").data, ("0.0").data, ("1.0").data, ("120").data]]
        [[("40").data, ("0.0").data, ("1.0").data, ("90").data]]).2 = false :=
  run_aborts_on_bad_guarded_field 60
    [[("60").data, ("0.0").data, ("0.5").data, ("1x0").data]]
    [[("36").data, ("0.0").data, ("1.0").data, ("120").data]]
    [[("40").data, ("0.0").data, ("1.0").data, ("90").data]]
    (Or.inl ⟨[("60").data, ("0.0").data, ("0.5").data, ("1x0").data],
      Or.inl (by decide), Or.inr (Or.inl (by decide))⟩)

/-- Claim C8: if any of the three marker strings does not occur in the
response text, the main flow aborts before parsing with the user-visible
warning outcome and emits no commands at all. -/
theorem gpt_main_missing_marker (text : List Char)
    (h : (¬ ∃ j, MELODY <+: text.drop j) ∨ (¬ ∃ j, DRUM <+: text.drop j)
      ∨ (¬ ∃ j, BASS <+: text.drop j)) :
    gpt_main text = RunResult.missingSection
    ∧ commandsOf (gpt_main text) = [] := by
  have hmain : gpt_main text = RunResult.missingSection := by
    rcases h with h | h | h
    · have hc : containsSub text MELODY = false :=
        (containsSub_eq_false_iff _ _).mpr h
      simp [gpt_main, hc]
    · have hc : containsSub text DRUM = false :=
        (containsSub_eq_false_iff _ _).mpr h
      simp [gpt_main, hc]
    · have hc : containsSub text BASS = false :=
        (containsSub_eq_false_iff _ _).mpr h
      simp [gpt_main, hc]
  exact ⟨hmain, by rw [hmain]; rfl⟩

/-- Witness for C8: the text `"hello"` contains none of the markers, so
the run exits with the warning outcome and no commands. -/
theorem gpt_main_missing_marker_witness :
    gpt_main ("hello").data = RunResult.missingSection
    ∧ commandsOf (gpt_main ("hello").data) = [] :=
  gpt_main_missing_marker ("hello").data
    (Or.inl ((containsSub_eq_false_iff ("hello").data MELODY).mp (by decide)))

/-- Claim C10: a parsed input that passes the guards but has an
unparseable velocity token (here in the bass row) aborts only during the
note-emission phase — after the set-tempo command, all six
delete-clip/create-clip commands, and the melody and drum note commands
have already been sent, leaving a partial command stream. -/
theorem gpt_main_partial_note_failure :
    gpt_main
        ("Melody\n60 0.0 0.5 100\nDrum\n36 0.0 1.0 120\nBass\n40 0.0 1.0 9x\n").data
      = RunResult.ran
        [Command.setTempo 60,
         Command.deleteClip 0 0, Command.createClip 0 0 ⟨5000, 4⟩,
         Command.deleteClip 1 0, Command.createClip 1 0 ⟨10000, 4⟩,
         Command.deleteClip 2 0, Command.createClip 2 0 ⟨10000, 4⟩,
         Command.addNote 0 0 60 ⟨0, 1⟩ ⟨5, 1⟩ 100 0,
         Command.addNote 1 0 36 ⟨0, 1⟩ ⟨10, 1⟩ 120 0] false
    ∧ pyInt? ("9x").data = none := by
  decide
